import Mathlib

/-!
# Verification of the DDoS log-analysis core

A shallow embedding of the repository's ingestion-and-scoring pipeline
(`parseCSVLogs`, `groupByIPAndTime`, `analyzeLogsForDDoS` from the analysis
module, `StreamingCSVProcessor.normalizeLogEntry` from `streamProcessor.js`,
and the constants of `config.js`).

Modelling conventions:
* JS strings are Lean `String`; JS numbers that hold integer counts are `Int`
  (JS `parseInt` can return negative values); JS float fields are `Rat`
  (exact rationals stand in for IEEE doubles — every comparison performed by
  the code involves integers divided by the window size against integer
  thresholds, where doubles and rationals agree).
* JS objects used as string-keyed maps are association lists in first-insertion
  order, which matches JS object iteration order for the non-integer-like keys
  this code produces; JS `Set` is a duplicate-free `List` in insertion order.
* `new Date(s).getTime()` (millisecond parse of a timestamp string) is taken
  as a parameter `pt : String → Option Int` (`none` models `NaN`); every
  theorem quantifies over it, so no property below depends on the details of
  JS date parsing.
* `new Date().toISOString()` (the wall clock read when a window is flagged) is
  an explicit parameter `now : String` of `analyzeLogsForDDoS`.
* The numeric interpolation inside indicator message strings
  (`toFixed(2)` formatting) is elided; messages keep their static text and the
  string parts the code builds by concatenation.
-/

namespace DDoS

/-! ## JS string primitives -/

/-- ASCII whitespace recognised by JS `trim` (space, tab, LF, VT, FF, CR). -/
def isJsSpace (c : Char) : Bool :=
  c = ' ' || c = '\t' || c = '\n' || c = '\r' || c.toNat = 11 || c.toNat = 12

/-- JS `String.prototype.trim` (ASCII whitespace). -/
def jsTrim (s : String) : String :=
  String.mk (((s.data.dropWhile isJsSpace).reverse.dropWhile isJsSpace).reverse)

/-- Does list `h` start with list `n`? (char-by-char) -/
def startsList (n h : List Char) : Bool :=
  match n, h with
  | [], _ => true
  | _ :: _, [] => false
  | a :: as, b :: bs => a = b && startsList as bs

/-- Does `h` contain `n` starting at some position? (JS `String.prototype.includes`) -/
def containsFrom (n : List Char) : List Char → Bool
  | [] => startsList n []
  | c :: rest => startsList n (c :: rest) || containsFrom n rest

/-- JS `h.includes(n)`. -/
def strContains (h n : String) : Bool := containsFrom n.data h.data

/-- JS `h.startsWith(n)` / an anchored `^...` regex prefix test. -/
def strStarts (p s : String) : Bool := startsList p.data s.data

/-- JS `toLowerCase` restricted to ASCII (all strings compared by the code are ASCII). -/
def jsToLower (s : String) : String := String.mk (s.data.map Char.toLower)

/-- JS `toUpperCase` restricted to ASCII. -/
def jsToUpper (s : String) : String := String.mk (s.data.map Char.toUpper)

/-! ## JS numeric parsing (`parseInt`, `parseFloat`) -/

def isDecDigit (c : Char) : Bool := '0' ≤ c && c ≤ '9'

def decVal (c : Char) : Nat := c.toNat - 48

def isHexDigit (c : Char) : Bool :=
  isDecDigit c || ('a' ≤ c && c ≤ 'f') || ('A' ≤ c && c ≤ 'F')

def hexVal (c : Char) : Nat :=
  if isDecDigit c then c.toNat - 48
  else if 'a' ≤ c && c ≤ 'f' then c.toNat - 87
  else c.toNat - 55

def digitsToNat (base : Nat) (ds : List Nat) : Nat :=
  ds.foldl (fun acc d => acc * base + d) 0

/-- JS `parseInt(s)` (radix 10, with the implicit `0x` hex prefix); `none` is `NaN`.
Skips leading whitespace, takes an optional sign, then the longest digit prefix. -/
def jsParseInt (s : String) : Option Int :=
  let cs := s.data.dropWhile isJsSpace
  let signAndRest : Int × List Char :=
    match cs with
    | '-' :: rest => (-1, rest)
    | '+' :: rest => (1, rest)
    | _ => (1, cs)
  let sign := signAndRest.1
  let cs2 := signAndRest.2
  match cs2 with
  | '0' :: c :: rest =>
    if c = 'x' || c = 'X' then
      let ds := rest.takeWhile isHexDigit
      if ds.isEmpty then none
      else some (sign * (digitsToNat 16 (ds.map hexVal) : Nat))
    else
      some (sign * (digitsToNat 10 ((cs2.takeWhile isDecDigit).map decVal) : Nat))
  | _ =>
    let ds := cs2.takeWhile isDecDigit
    if ds.isEmpty then none else some (sign * (digitsToNat 10 (ds.map decVal) : Nat))

/-- JS `parseFloat(s)` as an exact rational; `none` is `NaN`.
Sign, integer digits, optional fraction, optional exponent (ignored when it has
no digits, as in JS). The `Infinity` literal is not modelled (no claim and no
repository input uses it). -/
def jsParseFloat (s : String) : Option Rat :=
  let cs := s.data.dropWhile isJsSpace
  let signAndRest : Rat × List Char :=
    match cs with
    | '-' :: rest => (-1, rest)
    | '+' :: rest => (1, rest)
    | _ => (1, cs)
  let sign := signAndRest.1
  let cs2 := signAndRest.2
  let intDs := cs2.takeWhile isDecDigit
  let cs3 := cs2.drop intDs.length
  let fracAndRest : List Nat × List Char :=
    match cs3 with
    | '.' :: rest => ((rest.takeWhile isDecDigit).map decVal, rest.drop (rest.takeWhile isDecDigit).length)
    | _ => ([], cs3)
  let fracDs := fracAndRest.1
  let cs4 := fracAndRest.2
  if intDs.isEmpty && fracDs.isEmpty then none
  else
    let mant : Rat :=
      (digitsToNat 10 (intDs.map decVal) : Nat) +
        (digitsToNat 10 fracDs : Nat) / ((10 : Rat) ^ fracDs.length)
    let expo : Int :=
      match cs4 with
      | e :: rest =>
        if e = 'e' || e = 'E' then
          let esignAndRest : Int × List Char :=
            match rest with
            | '-' :: r => (-1, r)
            | '+' :: r => (1, r)
            | _ => (1, rest)
          let eds := esignAndRest.2.takeWhile isDecDigit
          if eds.isEmpty then 0 else esignAndRest.1 * (digitsToNat 10 (eds.map decVal) : Nat)
        else 0
      | [] => 0
    some (sign * mant *
      (if 0 ≤ expo then ((10 : Rat) ^ expo.toNat) else 1 / ((10 : Rat) ^ (-expo).toNat)))

/-! ## Configuration (`config.js`) -/

def HIGH_FREQUENCY_THRESHOLD : Rat := 100

def MEDIUM_FREQUENCY_THRESHOLD : Rat := 50

def ANALYSIS_WINDOW : Nat := 5

def SUSPICIOUS_USER_AGENTS : List String :=
  ["bot", "crawler", "spider", "scraper", "curl", "wget", "python", "java",
   "go-http-client", "okhttp", "requests", "urllib", "scrapy"]

def SUSPICIOUS_RESPONSE_CODES : List String := ["429", "503", "502", "504"]

def SUSPICIOUS_METHODS : List String := ["HEAD", "OPTIONS", "TRACE", "CONNECT"]

def KNOWN_DDOS_LABELS : List String :=
  ["DrDoS_DNS", "DrDoS_LDAP", "DrDoS_MSSQL", "DrDoS_NetBIOS", "DrDoS_NTP",
   "DrDoS_SNMP", "DrDoS_SSDP", "DrDoS_UDP", "DrDoS_WebDDoS", "Syn", "TFTP",
   "UDP", "UDP-lag", "WebDDoS", "LDAP", "MSSQL", "NetBIOS", "NTP", "SNMP", "SSDP"]

/-- The regex source strings of `CONFIG.SUSPICIOUS_IP_PATTERNS` (echoed in the
output configuration; the tests themselves are `isSuspiciousIP` below). -/
def SUSPICIOUS_IP_PATTERNS : List String :=
  ["^10\\.", "^172\\.(1[6-9]|2[0-9]|3[0-1])\\.", "^192\\.168\\.",
   "^127\\.", "^0\\.0\\.0\\.0", "^255\\.255\\.255\\.255"]

/-! ## Record normalisation (`parseCSVLogs` and
`StreamingCSVProcessor.normalizeLogEntry` — both normalisers are textually
identical in the source, so one definition embeds both). -/

/-- One normalised log record (an accepted row). -/
structure LogRecord where
  timestamp : String
  sourceIP : String
  destinationIP : String
  requestCount : Int
  duration : Rat
  bytes : Rat
  label : String
  userAgent : String
  responseCode : String
  method : String
  path : String
deriving DecidableEq, Repr

/-- One raw CSV row, projected at the configured `CSV_COLUMNS`
(` Timestamp`, ` Source IP`, ` Destination IP`, ` Total Fwd Packets`,
` Flow Duration`, `Total Length of Fwd Packets`, ` Label`); `none` models a
missing column (JS `undefined`). -/
structure RawRow where
  timestamp : Option String
  sourceIP : Option String
  destinationIP : Option String
  fwdPackets : Option String
  flowDuration : Option String
  totalLength : Option String
  label : Option String
deriving DecidableEq, Repr

/-- `data[col]?.trim() || d`: trim when present, and fall back to the sentinel
when missing or empty after trimming. -/
def trimOr (v : Option String) (d : String) : String :=
  match v with
  | none => d
  | some s => if jsTrim s = "" then d else jsTrim s

/-- `parseInt(data[col]) || 1`: 1 when missing, unparsable, or parsed to 0. -/
def parseIntOr1 (v : Option String) : Int :=
  match v with
  | none => 1
  | some s =>
    match jsParseInt s with
    | none => 1
    | some n => if n = 0 then 1 else n

/-- `parseFloat(data[col]) || 0`: 0 when missing or unparsable. -/
def parseFloatOr0 (v : Option String) : Rat :=
  match v with
  | none => 0
  | some s => (jsParseFloat s).getD 0

/-- The row normaliser shared by `parseCSVLogs` and
`StreamingCSVProcessor.normalizeLogEntry`: builds the candidate record, then
rejects it (returns `none`, after a warning-level log elided here) when the
timestamp, source IP, or destination IP came out as its sentinel. -/
def normalizeLogEntry (row : RawRow) : Option LogRecord :=
  let normalized : LogRecord :=
    { timestamp := trimOr row.timestamp "N/A"
      sourceIP := trimOr row.sourceIP "UNKNOWN"
      destinationIP := trimOr row.destinationIP "UNKNOWN"
      requestCount := parseIntOr1 row.fwdPackets
      duration := parseFloatOr0 row.flowDuration
      bytes := parseFloatOr0 row.totalLength
      label := trimOr row.label "N/A"
      userAgent := "N/A"
      responseCode := "N/A"
      method := "N/A"
      path := "N/A" }
  if normalized.timestamp = "N/A" ∨ normalized.sourceIP = "UNKNOWN" ∨
      normalized.destinationIP = "UNKNOWN" then
    none
  else
    some normalized

/-- `parseCSVLogs`: the valid entries of a whole file, in row order (rejected
rows are skipped, never aborting the run). -/
def parseCSVLogs (rows : List RawRow) : List LogRecord :=
  rows.filterMap normalizeLogEntry

/-! ## Detection predicates -/

/-- `isSuspiciousUserAgent`: some configured substring occurs (case-insensitively)
in the user agent; falsy user agents (the empty string) are never suspicious. -/
def isSuspiciousUserAgent (userAgent : String) : Bool :=
  if userAgent = "" then false
  else SUSPICIOUS_USER_AGENTS.any (fun pattern =>
    strContains (jsToLower userAgent) (jsToLower pattern))

/-- The strings `"16"`–`"31"` of the second octet alternation in the private
`172.x` regex. -/
def range172 : List String :=
  ["16", "17", "18", "19", "20", "21", "22", "23", "24", "25", "26", "27",
   "28", "29", "30", "31"]

/-- `isSuspiciousIP`: the anchored regex set of `CONFIG.SUSPICIOUS_IP_PATTERNS`,
written out as the prefix tests those regexes perform. -/
def isSuspiciousIP (ip : String) : Bool :=
  if ip = "" then false
  else
    strStarts "10." ip || (range172.any fun d => strStarts ("172." ++ d ++ ".") ip) ||
      strStarts "192.168." ip || strStarts "127." ip ||
      strStarts "0.0.0.0" ip || strStarts "255.255.255.255" ip

/-- `isKnownDDoSAttack`: case-insensitive exact match against the configured
known-DDoS label list. -/
def isKnownDDoSAttack (label : String) : Bool :=
  if label = "" then false
  else KNOWN_DDOS_LABELS.any (fun knownLabel => jsToLower label = jsToLower knownLabel)

/-! ## Window grouping (`groupByIPAndTime`) -/

/-- One per-(source IP, time window) accumulator, exactly the object literal
created by `groupByIPAndTime`. `timeWindow` is the floored millisecond bucket
(`none` models the `NaN` produced by an unparsable timestamp). -/
structure WindowGroup where
  sourceIP : String
  timeWindow : Option Int
  entries : List LogRecord
  totalRequests : Int
  uniquePaths : List String
  uniqueUserAgents : List String
  responseCodes : List (String × Int)
  methods : List (String × Int)
  labels : List String
  hasKnownDDoSAttack : Bool
deriving DecidableEq, Repr

/-- JS `Set.prototype.add` on an insertion-ordered duplicate-free list. -/
def setAdd (l : List String) (x : String) : List String :=
  if l.contains x then l else l ++ [x]

/-- `m[k] = (m[k] || 0) + n` on a string-keyed tally object. -/
def tallyAdd (m : List (String × Int)) (k : String) (n : Int) : List (String × Int) :=
  match m with
  | [] => [(k, n)]
  | (k', v) :: rest => if k' = k then (k', v + n) :: rest else (k', v) :: tallyAdd rest k n

/-- `Math.floor(new Date(ts).getTime() / (windowMinutes * 60 * 1000))`. -/
def timeKeyOf (pt : String → Option Int) (windowMinutes : Nat) (ts : String) : Option Int :=
  (pt ts).map fun ms => Int.fdiv ms (windowMinutes * 60 * 1000)

/-- The string a time key contributes to the grouping key (`NaN` prints as `"NaN"`). -/
def timeKeyStr : Option Int → String
  | some k => toString k
  | none => "NaN"

/-- The grouping key `` `${logEntry.sourceIP}_${timeKey}` ``. -/
def windowKey (pt : String → Option Int) (windowMinutes : Nat) (r : LogRecord) : String :=
  r.sourceIP ++ "_" ++ timeKeyStr (timeKeyOf pt windowMinutes r.timestamp)

/-- The freshly created aggregate, before the first record is folded in. -/
def emptyGroup (ip : String) (tk : Option Int) : WindowGroup :=
  { sourceIP := ip
    timeWindow := tk
    entries := []
    totalRequests := 0
    uniquePaths := []
    uniqueUserAgents := []
    responseCodes := []
    methods := []
    labels := []
    hasKnownDDoSAttack := false }

/-- The per-record mutation of an aggregate: push the entry, add its request
count, extend the path/user-agent sets, track truthy non-sentinel labels (and
the known-attack flag), and tally truthy non-sentinel response codes and
methods by request count. -/
def updateGroup (g : WindowGroup) (r : LogRecord) : WindowGroup :=
  { sourceIP := g.sourceIP
    timeWindow := g.timeWindow
    entries := g.entries ++ [r]
    totalRequests := g.totalRequests + r.requestCount
    uniquePaths := setAdd g.uniquePaths r.path
    uniqueUserAgents := setAdd g.uniqueUserAgents r.userAgent
    labels :=
      if r.label ≠ "" ∧ r.label ≠ "N/A" then setAdd g.labels r.label else g.labels
    hasKnownDDoSAttack :=
      if r.label ≠ "" ∧ r.label ≠ "N/A" then
        g.hasKnownDDoSAttack || isKnownDDoSAttack r.label
      else g.hasKnownDDoSAttack
    responseCodes :=
      if r.responseCode ≠ "" ∧ r.responseCode ≠ "N/A" then
        tallyAdd g.responseCodes r.responseCode r.requestCount
      else g.responseCodes
    methods :=
      if r.method ≠ "" ∧ r.method ≠ "N/A" then
        tallyAdd g.methods r.method r.requestCount
      else g.methods }

/-- The grouping map: JS object iteration order is first-insertion order for
these keys, so an association list in insertion order. -/
abbrev GroupMap := List (String × WindowGroup)

/-- Fold one record into the map: update the aggregate at its key in place, or
append a fresh aggregate at the end (JS property-creation order). -/
def addRecord (pt : String → Option Int) (w : Nat) (m : GroupMap) (r : LogRecord) :
    GroupMap :=
  match m with
  | [] => [(windowKey pt w r, updateGroup (emptyGroup r.sourceIP (timeKeyOf pt w r.timestamp)) r)]
  | (k, g) :: rest =>
    if k = windowKey pt w r then (k, updateGroup g r) :: rest
    else (k, g) :: addRecord pt w rest r

/-- `groupByIPAndTime` generalised to a starting accumulator: the loop body is
a left fold of `addRecord`, so feeding successive batches into one accumulator
is this function iterated. -/
def groupByIPAndTimeFrom (pt : String → Option Int) (w : Nat) (m : GroupMap)
    (parsedLogEntries : List LogRecord) : GroupMap :=
  parsedLogEntries.foldl (addRecord pt w) m

/-- `groupByIPAndTime(parsedLogEntries, windowMinutes)`. -/
def groupByIPAndTime (pt : String → Option Int) (w : Nat)
    (parsedLogEntries : List LogRecord) : GroupMap :=
  groupByIPAndTimeFrom pt w [] parsedLogEntries

/-- First (and, by construction, only) aggregate stored at a key. -/
def findGroup : GroupMap → String → Option WindowGroup
  | [], _ => none
  | (k', g) :: rest, k => if k' = k then some g else findGroup rest k

/-- The entries list at a key (`[]` when the key is absent). -/
def entriesAt (m : GroupMap) (k : String) : List LogRecord :=
  ((findGroup m k).map WindowGroup.entries).getD []

/-- The running request total at a key (`0` when the key is absent). -/
def totalAt (m : GroupMap) (k : String) : Int :=
  ((findGroup m k).map WindowGroup.totalRequests).getD 0

/-- The known-attack flag at a key (`false` when the key is absent). -/
def flagAt (m : GroupMap) (k : String) : Bool :=
  ((findGroup m k).map WindowGroup.hasKnownDDoSAttack).getD false

/-! ## Scoring (`analyzeLogsForDDoS`) -/

/-- `calculateRequestFrequency(totalRequests, windowMinutes)`. -/
def calculateRequestFrequency (totalRequests : Int) (windowMinutes : Nat) : Rat :=
  (totalRequests : Rat) / (windowMinutes : Rat)

/-- Rule 1 (weight 3): high request frequency. -/
def rule1fires (f : Rat) : Bool := HIGH_FREQUENCY_THRESHOLD ≤ f

/-- Rule 2 (weight 2): medium request frequency. -/
def rule2fires (f : Rat) : Bool :=
  MEDIUM_FREQUENCY_THRESHOLD ≤ f && f < HIGH_FREQUENCY_THRESHOLD

/-- Rule 3 (weight 2): some distinct user agent is suspicious. -/
def rule3fires (g : WindowGroup) : Bool :=
  !(g.uniqueUserAgents.filter isSuspiciousUserAgent).isEmpty

/-- Rule 4 (weight 1): the source IP matches a suspicious pattern. -/
def rule4fires (g : WindowGroup) : Bool := isSuspiciousIP g.sourceIP

/-- Rule 5 (weight 1): some tallied response code is in the suspicious set. -/
def rule5fires (g : WindowGroup) : Bool :=
  !(g.responseCodes.filter fun p => SUSPICIOUS_RESPONSE_CODES.contains p.1).isEmpty

/-- Rule 6 (weight 1): more than 50 distinct paths. -/
def rule6fires (g : WindowGroup) : Bool := 50 < g.uniquePaths.length

/-- Rule 7 (weight 1): some tallied method is in the suspicious set. -/
def rule7fires (g : WindowGroup) : Bool :=
  !(g.methods.filter fun p => SUSPICIOUS_METHODS.contains p.1).isEmpty

/-- The summed weight of the fired indicator rules, in registry order. -/
def rulesRisk (g : WindowGroup) (f : Rat) : Nat :=
  (if rule1fires f then 3 else 0) + (if rule2fires f then 2 else 0) +
    (if rule3fires g then 2 else 0) + (if rule4fires g then 1 else 0) +
    (if rule5fires g then 1 else 0) + (if rule6fires g then 1 else 0) +
    (if rule7fires g then 1 else 0)

/-- The distinct labels of a window that contain the case-sensitive substring
`DrDoS_DNS` — the only labels the supervised pass scores. -/
def drdosDnsLabels (labels : List String) : List String :=
  labels.filter fun label => strContains label "DrDoS_DNS"

/-- The total risk score of a window: fired rule weights plus 5 per distinct
`DrDoS_DNS`-containing label. -/
def riskScoreOf (g : WindowGroup) : Nat :=
  rulesRisk g (calculateRequestFrequency g.totalRequests ANALYSIS_WINDOW) +
    5 * (drdosDnsLabels g.labels).length

/-- The indicator messages of a window, in the order the code pushes them
(rules in registry order, then one label message per scored label). Numeric
`toFixed(2)` interpolation is elided. -/
def windowIndicators (g : WindowGroup) (f : Rat) : List String :=
  (if rule1fires f then ["High request frequency (req/min)"] else []) ++
    (if rule2fires f then ["Medium request frequency (req/min)"] else []) ++
    (if rule3fires g then
      ["Suspicious user agents: " ++
        String.intercalate ", " (g.uniqueUserAgents.filter isSuspiciousUserAgent)]
    else []) ++
    (if rule4fires g then ["Suspicious IP pattern: " ++ g.sourceIP] else []) ++
    (if rule5fires g then
      ["Suspicious response codes: " ++
        String.intercalate ", "
          ((g.responseCodes.filter fun p => SUSPICIOUS_RESPONSE_CODES.contains p.1).map
            fun p => p.1 ++ "(" ++ toString p.2 ++ ")")]
    else []) ++
    (if rule6fires g then
      ["High path diversity: " ++ toString g.uniquePaths.length ++ " unique paths"]
    else []) ++
    (if rule7fires g then
      ["Suspicious methods: " ++
        String.intercalate ", "
          ((g.methods.filter fun p => SUSPICIOUS_METHODS.contains p.1).map
            fun p => p.1 ++ "(" ++ toString p.2 ++ ")")]
    else []) ++
    (drdosDnsLabels g.labels).map (fun _ => "DrDoS_DNS attack detected (+5 risk)")

/-- One flagged output entity. `timestamp` is the wall-clock reading
(`new Date().toISOString()`) at flagging time. -/
structure FlaggedEntry where
  sourceIP : String
  timestamp : String
  requestCount : Int
  requestFrequency : Rat
  riskScore : Nat
  suspiciousIndicators : List String
  uniquePaths : Nat
  uniqueUserAgents : Nat
  responseCodes : List (String × Int)
  methods : List (String × Int)
  labels : List String
  hasKnownDDoSAttack : Bool
  entries : List LogRecord
deriving DecidableEq, Repr

/-- The flagged-entry object built for a window that crossed the threshold. -/
def mkFlaggedEntry (now : String) (g : WindowGroup) : FlaggedEntry :=
  let f := calculateRequestFrequency g.totalRequests ANALYSIS_WINDOW
  { sourceIP := g.sourceIP
    timestamp := now
    requestCount := g.totalRequests
    requestFrequency := f
    riskScore := riskScoreOf g
    suspiciousIndicators := windowIndicators g f
    uniquePaths := g.uniquePaths.length
    uniqueUserAgents := g.uniqueUserAgents.length
    responseCodes := g.responseCodes
    methods := g.methods
    labels := g.labels
    hasKnownDDoSAttack := g.hasKnownDDoSAttack || !(drdosDnsLabels g.labels).isEmpty
    entries := g.entries.take 5 }

/-- The run-wide counters of `analysisStats`. -/
structure AnalysisStats where
  totalEntries : Nat
  uniqueIPs : Nat
  suspiciousIPs : Nat
  highFrequencyIPs : Nat
  suspiciousUserAgents : Nat
  knownDDoSAttacks : Nat
  labeledAttacks : Nat
deriving DecidableEq, Repr

/-- The stats object before the window loop runs. -/
def initStats (parsedLogEntries : List LogRecord) : AnalysisStats :=
  { totalEntries := parsedLogEntries.length
    uniqueIPs := (parsedLogEntries.map LogRecord.sourceIP).dedup.length
    suspiciousIPs := 0
    highFrequencyIPs := 0
    suspiciousUserAgents := 0
    knownDDoSAttacks := 0
    labeledAttacks := 0 }

/-- The per-window counter bumps of the loop body: per-rule `statKey` counters
for the rules that fire, one `knownDDoSAttacks` bump per scored label, and one
`labeledAttacks` bump per distinct non-`BENIGN` label. -/
def bumpStats (g : WindowGroup) (stats : AnalysisStats) : AnalysisStats :=
  let f := calculateRequestFrequency g.totalRequests ANALYSIS_WINDOW
  { stats with
    highFrequencyIPs := stats.highFrequencyIPs + (if rule1fires f then 1 else 0)
    suspiciousUserAgents :=
      stats.suspiciousUserAgents + (if rule3fires g then 1 else 0)
    suspiciousIPs := stats.suspiciousIPs + (if rule4fires g then 1 else 0)
    knownDDoSAttacks := stats.knownDDoSAttacks + (drdosDnsLabels g.labels).length
    labeledAttacks :=
      stats.labeledAttacks +
        (g.labels.filter fun l => jsToUpper (jsTrim l) ≠ "BENIGN").length }

/-- One iteration of the window loop: bump the counters and append the flagged
entry when the risk score reaches the threshold 2. -/
def analyzeStep (now : String) (acc : List FlaggedEntry × AnalysisStats)
    (g : WindowGroup) : List FlaggedEntry × AnalysisStats :=
  (if 2 ≤ riskScoreOf g then acc.1 ++ [mkFlaggedEntry now g] else acc.1,
    bumpStats g acc.2)

/-- The window loop over the grouping map, in map-iteration (insertion) order. -/
def scanGroups (now : String) (groups : GroupMap) (init : AnalysisStats) :
    List FlaggedEntry × AnalysisStats :=
  groups.foldl (fun acc kg => analyzeStep now acc kg.2) ([], init)

/-- The comparator `(a, b) => b.riskScore - a.riskScore`: `a` may stay before
`b` exactly when `a`'s score is at least `b`'s. -/
def riskGE (a b : FlaggedEntry) : Prop := b.riskScore ≤ a.riskScore

instance : DecidableRel riskGE := fun a b => Nat.decLe b.riskScore a.riskScore

instance : IsTotal FlaggedEntry riskGE := ⟨fun a b => Nat.le_total b.riskScore a.riskScore⟩

instance : IsTrans FlaggedEntry riskGE := ⟨fun _ _ _ h1 h2 => Nat.le_trans h2 h1⟩

/-- `flaggedEntries.sort((a, b) => b.riskScore - a.riskScore)` — a stable sort
(ECMAScript 2019 `Array.prototype.sort` is stable) by descending risk score;
any stable sort by one key produces the same list, so insertion sort embeds it. -/
def sortByRiskDesc (l : List FlaggedEntry) : List FlaggedEntry :=
  List.insertionSort riskGE l

/-- The echoed `analysisConfig`. -/
structure DetectionConfigT where
  HIGH_FREQUENCY_THRESHOLD : Rat
  MEDIUM_FREQUENCY_THRESHOLD : Rat
  ANALYSIS_WINDOW : Nat
  SUSPICIOUS_USER_AGENTS : List String
  SUSPICIOUS_IP_PATTERNS : List String
  SUSPICIOUS_RESPONSE_CODES : List String
  SUSPICIOUS_METHODS : List String
  KNOWN_DDOS_LABELS : List String
deriving DecidableEq, Repr

def DETECTION_CONFIG : DetectionConfigT :=
  { HIGH_FREQUENCY_THRESHOLD := HIGH_FREQUENCY_THRESHOLD
    MEDIUM_FREQUENCY_THRESHOLD := MEDIUM_FREQUENCY_THRESHOLD
    ANALYSIS_WINDOW := ANALYSIS_WINDOW
    SUSPICIOUS_USER_AGENTS := SUSPICIOUS_USER_AGENTS
    SUSPICIOUS_IP_PATTERNS := SUSPICIOUS_IP_PATTERNS
    SUSPICIOUS_RESPONSE_CODES := SUSPICIOUS_RESPONSE_CODES
    SUSPICIOUS_METHODS := SUSPICIOUS_METHODS
    KNOWN_DDOS_LABELS := KNOWN_DDOS_LABELS }

/-- The analysis result object. -/
structure AnalysisOutput where
  flaggedEntries : List FlaggedEntry
  analysisStats : AnalysisStats
  analysisConfig : DetectionConfigT
deriving DecidableEq, Repr

/-- The scoring pass given an already-built grouping map (the body of
`analyzeLogsForDDoS` after its `groupByIPAndTime` call). -/
def analyzeFromGroups (now : String) (parsedLogEntries : List LogRecord)
    (groups : GroupMap) : AnalysisOutput :=
  let fs := scanGroups now groups (initStats parsedLogEntries)
  { flaggedEntries := sortByRiskDesc fs.1
    analysisStats := fs.2
    analysisConfig := DETECTION_CONFIG }

/-- `analyzeLogsForDDoS(parsedLogEntries)`; `pt` is the timestamp parse and
`now` the wall clock, both ambient in the source. -/
def analyzeLogsForDDoS (pt : String → Option Int) (now : String)
    (parsedLogEntries : List LogRecord) : AnalysisOutput :=
  analyzeFromGroups now parsedLogEntries
    (groupByIPAndTime pt ANALYSIS_WINDOW parsedLogEntries)

/-- The flagged list in window-processing order, before the final sort. -/
def flaggedRawOf (pt : String → Option Int) (now : String)
    (parsedLogEntries : List LogRecord) : List FlaggedEntry :=
  (scanGroups now (groupByIPAndTime pt ANALYSIS_WINDOW parsedLogEntries)
    (initStats parsedLogEntries)).1

/-! ## Spec-side predicates and helpers used by the theorems -/

/-- The spec's "missing or sentinel after trimming" on one raw field. -/
def missingOrSentinel (v : Option String) (sent : String) : Prop :=
  match v with
  | none => True
  | some s => jsTrim s = "" ∨ jsTrim s = sent

/-- What the CSV normalisers stamp on every record they accept: the four
application-layer fields carry the `N/A` sentinel. -/
def csvShaped (r : LogRecord) : Prop :=
  r.userAgent = "N/A" ∧ r.responseCode = "N/A" ∧ r.method = "N/A" ∧ r.path = "N/A"

/-- The aggregate shape forced by `csvShaped` records: singleton `N/A` path and
user-agent sets, empty response-code and method tallies. -/
def groupShaped (g : WindowGroup) : Prop :=
  g.uniquePaths = ["N/A"] ∧ g.uniqueUserAgents = ["N/A"] ∧
    g.responseCodes = [] ∧ g.methods = []

/-- Erase the generation timestamp of a flagged entry. -/
def stripEntryTime (e : FlaggedEntry) : FlaggedEntry := { e with timestamp := "" }

/-- Erase every generation timestamp of an analysis result. -/
def stripOutputTimes (o : AnalysisOutput) : AnalysisOutput :=
  { o with flaggedEntries := o.flaggedEntries.map stripEntryTime }

/-! ## Concrete fixtures for witnesses and counterexamples -/

/-- A concrete stand-in for JS date parsing in closed statements: integer
strings parse to themselves (as milliseconds), everything else to `NaN`. -/
def ptFix : String → Option Int := fun s => if s = "0" then some 0 else none

/-- A record labelled `Syn` — a configured known-DDoS label — with no other
suspicious signal. -/
def recSyn : LogRecord :=
  { timestamp := "0", sourceIP := "203.0.113.5", destinationIP := "10.0.0.1",
    requestCount := 1, duration := 0, bytes := 0, label := "Syn",
    userAgent := "N/A", responseCode := "N/A", method := "N/A", path := "N/A" }

/-- A benign-labelled record carrying 500 requests in one window
(frequency 100 req/min — fires the high-frequency rule). -/
def rec500 : LogRecord :=
  { recSyn with label := "BENIGN", requestCount := 500, sourceIP := "203.0.113.7" }

/-- A record labelled with the scored `DrDoS_DNS` attack family. -/
def recDNS : LogRecord := { recSyn with label := "DrDoS_DNS" }

/-- The aggregate the pipeline builds for the single record `recSyn`. -/
def gSyn : WindowGroup := updateGroup (emptyGroup "203.0.113.5" (some 0)) recSyn

/-- The aggregate the pipeline builds for the single record `rec500`. -/
def g500 : WindowGroup := updateGroup (emptyGroup "203.0.113.7" (some 0)) rec500

/-- The aggregate the pipeline builds for the single record `recDNS`. -/
def gDNS : WindowGroup := updateGroup (emptyGroup "203.0.113.5" (some 0)) recDNS

/-- A raw row whose forward-packet field is `"0"`: `parseInt` succeeds with 0,
yet `|| 1` turns it into 1. -/
def rowZero : RawRow :=
  { timestamp := some "0", sourceIP := some "192.168.1.100",
    destinationIP := some "10.0.0.1", fwdPackets := some "0",
    flowDuration := none, totalLength := none, label := some "BENIGN" }

/-- A raw row whose forward-packet field is `"-10"` (one of the repository's
own sample edge rows): the parsed negative count is kept as-is. -/
def rowNeg : RawRow :=
  { rowZero with fwdPackets := some "-10" }

/-- A raw row with every required field present and well-formed. -/
def rowGood : RawRow :=
  { rowZero with fwdPackets := some "5" }

/-- A raw row missing the source-address column but otherwise valid. -/
def rowNoSrc : RawRow :=
  { rowGood with sourceIP := none }

/-- The record `rowGood` normalises to. -/
def recGood : LogRecord :=
  { timestamp := "0", sourceIP := "192.168.1.100", destinationIP := "10.0.0.1",
    requestCount := 5, duration := 0, bytes := 0, label := "BENIGN",
    userAgent := "N/A", responseCode := "N/A", method := "N/A", path := "N/A" }

/-! ## Grouping lemmas -/

@[simp]
theorem updateGroup_entries (g : WindowGroup) (r : LogRecord) :
    (updateGroup g r).entries = g.entries ++ [r] := rfl

@[simp]
theorem updateGroup_totalRequests (g : WindowGroup) (r : LogRecord) :
    (updateGroup g r).totalRequests = g.totalRequests + r.requestCount := rfl

@[simp]
theorem emptyGroup_entries (ip : String) (tk : Option Int) :
    (emptyGroup ip tk).entries = [] := rfl

@[simp]
theorem emptyGroup_totalRequests (ip : String) (tk : Option Int) :
    (emptyGroup ip tk).totalRequests = 0 := rfl

/-- Where a record lands: folding one record updates exactly its own key. -/
theorem findGroup_addRecord (pt : String → Option Int) (w : Nat) (m : GroupMap)
    (r : LogRecord) (k : String) :
    findGroup (addRecord pt w m r) k =
      if windowKey pt w r = k then
        some (updateGroup
          ((findGroup m k).getD (emptyGroup r.sourceIP (timeKeyOf pt w r.timestamp))) r)
      else findGroup m k := by
  induction m with
  | nil =>
    by_cases h : windowKey pt w r = k <;> simp [addRecord, findGroup, h]
  | cons hd tl ih =>
    obtain ⟨k', g⟩ := hd
    by_cases h1 : k' = windowKey pt w r
    · subst h1
      by_cases h2 : windowKey pt w r = k <;> simp [addRecord, findGroup, h2]
    · by_cases h2 : k' = k
      · subst h2
        have h3 : ¬ windowKey pt w r = k' := fun hk => h1 hk.symm
        simp [addRecord, findGroup, h1, h3]
      · simp [addRecord, findGroup, h1, h2, ih]

theorem entriesAt_addRecord (pt : String → Option Int) (w : Nat) (m : GroupMap)
    (r : LogRecord) (k : String) :
    entriesAt (addRecord pt w m r) k =
      if windowKey pt w r = k then entriesAt m k ++ [r] else entriesAt m k := by
  by_cases h : windowKey pt w r = k
  · cases hf : findGroup m k <;>
      simp [entriesAt, findGroup_addRecord, h, hf]
  · simp [entriesAt, findGroup_addRecord, h]

theorem totalAt_addRecord (pt : String → Option Int) (w : Nat) (m : GroupMap)
    (r : LogRecord) (k : String) :
    totalAt (addRecord pt w m r) k =
      if windowKey pt w r = k then totalAt m k + r.requestCount else totalAt m k := by
  by_cases h : windowKey pt w r = k
  · cases hf : findGroup m k <;>
      simp [totalAt, findGroup_addRecord, h, hf]
  · simp [totalAt, findGroup_addRecord, h]

theorem entriesAt_fold (pt : String → Option Int) (w : Nat) (recs : List LogRecord) :
    ∀ (m : GroupMap) (k : String),
      entriesAt (groupByIPAndTimeFrom pt w m recs) k =
        entriesAt m k ++ recs.filter fun r => windowKey pt w r = k := by
  induction recs with
  | nil => intro m k; simp [groupByIPAndTimeFrom]
  | cons r rs ih =>
    intro m k
    have step := entriesAt_addRecord pt w m r k
    by_cases h : windowKey pt w r = k
    · simp only [groupByIPAndTimeFrom, List.foldl_cons]
      rw [show (rs.foldl (addRecord pt w) (addRecord pt w m r)) =
            groupByIPAndTimeFrom pt w (addRecord pt w m r) rs from rfl, ih]
      simp [step, h, List.filter_cons]
    · simp only [groupByIPAndTimeFrom, List.foldl_cons]
      rw [show (rs.foldl (addRecord pt w) (addRecord pt w m r)) =
            groupByIPAndTimeFrom pt w (addRecord pt w m r) rs from rfl, ih]
      simp [step, h, List.filter_cons]

theorem totalAt_fold (pt : String → Option Int) (w : Nat) (recs : List LogRecord) :
    ∀ (m : GroupMap) (k : String),
      totalAt (groupByIPAndTimeFrom pt w m recs) k =
        totalAt m k +
          ((recs.filter fun r => windowKey pt w r = k).map LogRecord.requestCount).sum := by
  induction recs with
  | nil => intro m k; simp [groupByIPAndTimeFrom]
  | cons r rs ih =>
    intro m k
    have step := totalAt_addRecord pt w m r k
    by_cases h : windowKey pt w r = k <;>
    · simp only [groupByIPAndTimeFrom, List.foldl_cons]
      rw [show (rs.foldl (addRecord pt w) (addRecord pt w m r)) =
            groupByIPAndTimeFrom pt w (addRecord pt w m r) rs from rfl, ih]
      simp [step, h, List.filter_cons]
      try ring

/-- C1. For every list of valid records and every window key, the grouping map
holds at that key exactly the input records whose key it is, in input order
(so every record lands in exactly one aggregate, with no duplication and no
loss), and the aggregate's running `totalRequests` is the sum of the
`requestCount` fields of exactly those records — equivalently, of the records
in its own `entries` list. -/
theorem grouping_places_each_record_once (pt : String → Option Int) (w : Nat)
    (recs : List LogRecord) (k : String) :
    entriesAt (groupByIPAndTime pt w recs) k =
        (recs.filter fun r => windowKey pt w r = k) ∧
      totalAt (groupByIPAndTime pt w recs) k =
        ((recs.filter fun r => windowKey pt w r = k).map LogRecord.requestCount).sum ∧
      totalAt (groupByIPAndTime pt w recs) k =
        ((entriesAt (groupByIPAndTime pt w recs) k).map LogRecord.requestCount).sum := by
  have he := entriesAt_fold pt w recs [] k
  have ht := totalAt_fold pt w recs [] k
  simp only [entriesAt, totalAt, findGroup] at he ht
  refine ⟨?_, ?_, ?_⟩
  · simpa [groupByIPAndTime, entriesAt, findGroup] using he
  · simpa [groupByIPAndTime, totalAt, findGroup] using ht
  · have h1 : entriesAt (groupByIPAndTime pt w recs) k =
        (recs.filter fun r => windowKey pt w r = k) := by
      simpa [groupByIPAndTime, entriesAt, findGroup] using he
    rw [h1]
    simpa [groupByIPAndTime, totalAt, findGroup] using ht

/-! ## Batch accumulation -/

theorem groupFrom_append (pt : String → Option Int) (w : Nat) (m : GroupMap)
    (l1 l2 : List LogRecord) :
    groupByIPAndTimeFrom pt w m (l1 ++ l2) =
      groupByIPAndTimeFrom pt w (groupByIPAndTimeFrom pt w m l1) l2 := by
  simp [groupByIPAndTimeFrom, List.foldl_append]

theorem groupFrom_batches (pt : String → Option Int) (w : Nat)
    (batches : List (List LogRecord)) :
    ∀ m : GroupMap,
      batches.foldl (fun acc batch => groupByIPAndTimeFrom pt w acc batch) m =
        groupByIPAndTimeFrom pt w m batches.flatten := by
  induction batches with
  | nil => intro m; simp [groupByIPAndTimeFrom]
  | cons b bs ih =>
    intro m
    simp only [List.foldl_cons, List.flatten_cons, ih, groupFrom_append]

/-- C5. Feeding any batch decomposition of the input through the grouping
accumulator one batch at a time produces the same aggregate map as grouping
the whole list in one call — and therefore the scoring pass over that
accumulated map returns exactly the output (flagged windows, risk scores,
statistics, configuration echo) of the one-shot `analyzeLogsForDDoS`. -/
theorem batch_split_independence (pt : String → Option Int) (w : Nat) (now : String)
    (batches : List (List LogRecord)) :
    batches.foldl (fun acc batch => groupByIPAndTimeFrom pt w acc batch) [] =
        groupByIPAndTime pt w batches.flatten ∧
      analyzeFromGroups now batches.flatten
          (batches.foldl
            (fun acc batch => groupByIPAndTimeFrom pt ANALYSIS_WINDOW acc batch) []) =
        analyzeLogsForDDoS pt now batches.flatten := by
  refine ⟨groupFrom_batches pt w batches [], ?_⟩
  rw [groupFrom_batches pt ANALYSIS_WINDOW batches []]
  rfl

/-! ## Known-attack flag lemmas -/

@[simp]
theorem updateGroup_flag (g : WindowGroup) (r : LogRecord) :
    (updateGroup g r).hasKnownDDoSAttack =
      if r.label ≠ "" ∧ r.label ≠ "N/A" then
        g.hasKnownDDoSAttack || isKnownDDoSAttack r.label
      else g.hasKnownDDoSAttack := rfl

theorem isKnown_label_not_sentinel (l : String) (h : isKnownDDoSAttack l = true) :
    l ≠ "" ∧ l ≠ "N/A" := by
  constructor
  · rintro rfl
    simp [isKnownDDoSAttack] at h
  · rintro rfl
    have : isKnownDDoSAttack "N/A" = false := by decide
    rw [this] at h
    cases h

theorem flagAt_addRecord (pt : String → Option Int) (w : Nat) (m : GroupMap)
    (r : LogRecord) (k : String) :
    flagAt (addRecord pt w m r) k =
      if windowKey pt w r = k then
        (if r.label ≠ "" ∧ r.label ≠ "N/A" then
          flagAt m k || isKnownDDoSAttack r.label
        else flagAt m k)
      else flagAt m k := by
  by_cases h : windowKey pt w r = k
  · cases hf : findGroup m k <;>
      by_cases hl : r.label ≠ "" ∧ r.label ≠ "N/A" <;>
        simp [flagAt, findGroup_addRecord, h, hf, hl, emptyGroup]
  · simp [flagAt, findGroup_addRecord, h]

theorem flagAt_addRecord_mono (pt : String → Option Int) (w : Nat) (m : GroupMap)
    (r : LogRecord) (k : String) (h : flagAt m k = true) :
    flagAt (addRecord pt w m r) k = true := by
  rw [flagAt_addRecord]
  split
  · split
    · simp [h]
    · exact h
  · exact h

theorem flagAt_fold_mono (pt : String → Option Int) (w : Nat)
    (recs : List LogRecord) :
    ∀ (m : GroupMap) (k : String), flagAt m k = true →
      flagAt (groupByIPAndTimeFrom pt w m recs) k = true := by
  induction recs with
  | nil => intro m k h; simpa [groupByIPAndTimeFrom] using h
  | cons r rs ih =>
    intro m k h
    exact ih (addRecord pt w m r) k (flagAt_addRecord_mono pt w m r k h)

theorem flagAt_fold_set (pt : String → Option Int) (w : Nat)
    (recs : List LogRecord) :
    ∀ (m : GroupMap) (r : LogRecord), r ∈ recs → isKnownDDoSAttack r.label = true →
      flagAt (groupByIPAndTimeFrom pt w m recs) (windowKey pt w r) = true := by
  induction recs with
  | nil => intro m r h; cases h
  | cons a as ih =>
    intro m r hmem hk
    rcases List.mem_cons.mp hmem with heq | hin
    · subst heq
      refine flagAt_fold_mono pt w as (addRecord pt w m r) (windowKey pt w r) ?_
      rw [flagAt_addRecord]
      rw [if_pos rfl, if_pos (isKnown_label_not_sentinel r.label hk)]
      simp [hk]
    · exact ih (addRecord pt w m a) r hin hk

unseal Rat.mul Rat.inv in
/-- C4 counterexample. `Syn` is a configured known-attack label (so it matches
case-insensitively and sets the window's known-attack flag), yet the window
built from a single `Syn`-labelled record scores 0 — the designated +5 weight
is not contributed, and the window is not even flagged. The +5 weight is tied
to the substring `DrDoS_DNS`, not to the configured label list. -/
theorem known_label_weight_counterexample :
    isKnownDDoSAttack "Syn" = true ∧
      findGroup (groupByIPAndTime ptFix 5 [recSyn]) (windowKey ptFix 5 recSyn) =
        some gSyn ∧
      gSyn.hasKnownDDoSAttack = true ∧
      riskScoreOf gSyn = 0 ∧
      (analyzeLogsForDDoS ptFix "t" [recSyn]).flaggedEntries = [] := by
  refine ⟨by decide, by decide, by decide, by decide, by decide⟩

/-- C4 (amended). A record whose label matches a configured known-attack label
case-insensitively does set its window's known-attack flag; the +5 risk weight,
however, is contributed exactly once per distinct label containing the
case-sensitive substring `DrDoS_DNS` (not once per configured-list match). -/
theorem known_label_flag_and_drdos_weight :
    (∀ (pt : String → Option Int) (w : Nat) (recs : List LogRecord) (r : LogRecord),
        r ∈ recs → isKnownDDoSAttack r.label = true →
          flagAt (groupByIPAndTime pt w recs) (windowKey pt w r) = true) ∧
      ∀ g : WindowGroup,
        riskScoreOf g =
          rulesRisk g (calculateRequestFrequency g.totalRequests ANALYSIS_WINDOW) +
            5 * (drdosDnsLabels g.labels).length := by
  constructor
  · intro pt w recs r hmem hk
    exact flagAt_fold_set pt w recs [] r hmem hk
  · intro g
    rfl

/-- C4 witness: a single `DrDoS_DNS`-labelled record sets its window's flag,
and that window's score decomposes as rule risk plus one +5 contribution. -/
theorem known_label_flag_and_drdos_weight_witness :
    flagAt (groupByIPAndTime ptFix 5 [recDNS]) (windowKey ptFix 5 recDNS) = true ∧
      riskScoreOf gDNS =
        rulesRisk gDNS (calculateRequestFrequency gDNS.totalRequests ANALYSIS_WINDOW) +
          5 * (drdosDnsLabels gDNS.labels).length := by
  refine ⟨?_, known_label_flag_and_drdos_weight.2 gDNS⟩
  exact known_label_flag_and_drdos_weight.1 ptFix 5 [recDNS] recDNS
    (List.mem_singleton.mpr rfl) (by decide)

/-! ## CSV-shape invariants -/

theorem normalizeLogEntry_shape (row : RawRow) (rec : LogRecord)
    (h : normalizeLogEntry row = some rec) : csvShaped rec := by
  simp only [normalizeLogEntry] at h
  split at h
  · exact absurd h (by simp)
  · cases h
    exact ⟨rfl, rfl, rfl, rfl⟩

theorem parseCSVLogs_shape (rows : List RawRow) (r : LogRecord)
    (h : r ∈ parseCSVLogs rows) : csvShaped r := by
  obtain ⟨row, _, hrow⟩ := List.mem_filterMap.mp h
  exact normalizeLogEntry_shape row r hrow

theorem updateGroup_shape (g : WindowGroup) (r : LogRecord)
    (hr : csvShaped r) (hg : groupShaped g) : groupShaped (updateGroup g r) := by
  obtain ⟨hua, hrc, hme, hpa⟩ := hr
  obtain ⟨g1, g2, g3, g4⟩ := hg
  refine ⟨?_, ?_, ?_, ?_⟩ <;>
    simp [updateGroup, setAdd, g1, g2, g3, g4, hua, hrc, hme, hpa]

theorem updateGroup_empty_shape (ip : String) (tk : Option Int) (r : LogRecord)
    (hr : csvShaped r) : groupShaped (updateGroup (emptyGroup ip tk) r) := by
  obtain ⟨hua, hrc, hme, hpa⟩ := hr
  refine ⟨?_, ?_, ?_, ?_⟩ <;>
    simp [updateGroup, emptyGroup, setAdd, hua, hrc, hme, hpa]

theorem addRecord_shape (pt : String → Option Int) (w : Nat) (m : GroupMap)
    (r : LogRecord) (hr : csvShaped r)
    (hm : ∀ k g, findGroup m k = some g → groupShaped g) :
    ∀ k g, findGroup (addRecord pt w m r) k = some g → groupShaped g := by
  intro k g hfind
  rw [findGroup_addRecord] at hfind
  by_cases h : windowKey pt w r = k
  · rw [if_pos h] at hfind
    cases hfind
    cases hf : findGroup m k with
    | none => simpa [hf] using updateGroup_empty_shape r.sourceIP _ r hr
    | some g0 => simpa [hf] using updateGroup_shape g0 r hr (hm k g0 hf)
  · rw [if_neg h] at hfind
    exact hm k g hfind

theorem fold_shape (pt : String → Option Int) (w : Nat) (recs : List LogRecord)
    (hrecs : ∀ r ∈ recs, csvShaped r) :
    ∀ (m : GroupMap), (∀ k g, findGroup m k = some g → groupShaped g) →
      ∀ k g, findGroup (groupByIPAndTimeFrom pt w m recs) k = some g → groupShaped g := by
  induction recs with
  | nil => intro m hm; simpa [groupByIPAndTimeFrom] using hm
  | cons a as ih =>
    intro m hm
    have ha : csvShaped a := hrecs a (List.mem_cons_self a as)
    have has : ∀ r ∈ as, csvShaped r := fun r hr => hrecs r (List.mem_cons_of_mem a hr)
    exact ih has (addRecord pt w m a) (addRecord_shape pt w m a ha hm)

/-- C10. Every record the CSV normalisers accept carries the `N/A` sentinel in
all four application-layer fields; consequently every aggregate built from
CSV-normalised records has singleton `N/A` path and user-agent sets (distinct
path count exactly 1) and empty response-code and method tallies, so the
suspicious-user-agent, suspicious-response-code, path-diversity, and
suspicious-method rules never fire on it. -/
theorem csv_records_keep_optional_rules_silent :
    (∀ (row : RawRow) (rec : LogRecord), normalizeLogEntry row = some rec →
        rec.userAgent = "N/A" ∧ rec.responseCode = "N/A" ∧
          rec.method = "N/A" ∧ rec.path = "N/A") ∧
      ∀ (pt : String → Option Int) (w : Nat) (rows : List RawRow) (k : String)
        (g : WindowGroup),
        findGroup (groupByIPAndTime pt w (parseCSVLogs rows)) k = some g →
          g.uniquePaths = ["N/A"] ∧ g.uniqueUserAgents = ["N/A"] ∧
            g.responseCodes = [] ∧ g.methods = [] ∧ g.uniquePaths.length = 1 ∧
            rule3fires g = false ∧ rule5fires g = false ∧
            rule6fires g = false ∧ rule7fires g = false := by
  constructor
  · intro row rec h
    exact normalizeLogEntry_shape row rec h
  · intro pt w rows k g hfind
    have hshape : groupShaped g := by
      refine fold_shape pt w (parseCSVLogs rows)
        (fun r hr => parseCSVLogs_shape rows r hr) [] ?_ k g hfind
      intro k' g' h'
      simp [findGroup] at h'
    obtain ⟨h1, h2, h3, h4⟩ := hshape
    refine ⟨h1, h2, h3, h4, by simp [h1], ?_, ?_, ?_, ?_⟩
    · rw [rule3fires, h2]
      decide
    · rw [rule5fires, h3]
      rfl
    · rw [rule6fires, h1]
      rfl
    · rw [rule7fires, h4]
      rfl

/-- C10 witness: a concrete accepted row carries the sentinels, and the window
built from it keeps the four optional-field rules silent. -/
theorem csv_records_keep_optional_rules_silent_witness :
    ((normalizeLogEntry rowGood).getD recSyn).userAgent = "N/A" ∧
      ∀ g : WindowGroup,
        findGroup (groupByIPAndTime ptFix 5 (parseCSVLogs [rowGood]))
            "192.168.1.100_0" = some g →
          rule3fires g = false ∧ rule6fires g = false := by
  constructor
  · cases hg : normalizeLogEntry rowGood with
    | none => simp [hg, recSyn]
    | some rec =>
      simp only [hg, Option.getD_some]
      exact (csv_records_keep_optional_rules_silent.1 rowGood rec hg).1
  · intro g hfind
    have h := csv_records_keep_optional_rules_silent.2 ptFix 5 [rowGood]
      "192.168.1.100_0" g hfind
    exact ⟨h.2.2.2.2.2.1, h.2.2.2.2.2.2.2.1⟩

/-! ## Window-loop characterisation -/

@[simp]
theorem mkFlaggedEntry_riskScore (now : String) (g : WindowGroup) :
    (mkFlaggedEntry now g).riskScore = riskScoreOf g := rfl

@[simp]
theorem mkFlaggedEntry_requestCount (now : String) (g : WindowGroup) :
    (mkFlaggedEntry now g).requestCount = g.totalRequests := rfl

@[simp]
theorem mkFlaggedEntry_requestFrequency (now : String) (g : WindowGroup) :
    (mkFlaggedEntry now g).requestFrequency =
      calculateRequestFrequency g.totalRequests ANALYSIS_WINDOW := rfl

theorem findGroup_mem (m : GroupMap) (k : String) (g : WindowGroup)
    (h : findGroup m k = some g) : g ∈ m.map Prod.snd := by
  induction m with
  | nil => simp [findGroup] at h
  | cons hd tl ih =>
    obtain ⟨k', g'⟩ := hd
    by_cases hk : k' = k
    · simp only [findGroup, if_pos hk] at h
      cases h
      simp
    · simp only [findGroup, if_neg hk] at h
      simp [ih h]

theorem scanGroups_fold_fst (now : String) (gs : GroupMap) :
    ∀ acc : List FlaggedEntry × AnalysisStats,
      (gs.foldl (fun acc kg => analyzeStep now acc kg.2) acc).1 =
        acc.1 ++
          ((gs.map Prod.snd).filter fun g => decide (2 ≤ riskScoreOf g)).map
            (mkFlaggedEntry now) := by
  induction gs with
  | nil => intro acc; simp
  | cons kg gs ih =>
    intro acc
    obtain ⟨k, g⟩ := kg
    rw [List.foldl_cons, ih]
    by_cases h : 2 ≤ riskScoreOf g <;>
      simp [analyzeStep, h, List.filter_cons]

theorem scanGroups_fst (now : String) (gs : GroupMap) (init : AnalysisStats) :
    (scanGroups now gs init).1 =
      ((gs.map Prod.snd).filter fun g => decide (2 ≤ riskScoreOf g)).map
        (mkFlaggedEntry now) := by
  simpa [scanGroups] using scanGroups_fold_fst now gs ([], init)

theorem scanGroups_fold_snd (now : String) (gs : GroupMap) :
    ∀ acc : List FlaggedEntry × AnalysisStats,
      (gs.foldl (fun acc kg => analyzeStep now acc kg.2) acc).2 =
        gs.foldl (fun s kg => bumpStats kg.2 s) acc.2 := by
  induction gs with
  | nil => intro acc; simp
  | cons kg gs ih =>
    intro acc
    rw [List.foldl_cons, ih, List.foldl_cons]
    rfl

theorem scanGroups_snd (now : String) (gs : GroupMap) (init : AnalysisStats) :
    (scanGroups now gs init).2 = gs.foldl (fun s kg => bumpStats kg.2 s) init := by
  simpa [scanGroups] using scanGroups_fold_snd now gs ([], init)

/-! ## Sorting lemmas -/

theorem mem_sortByRiskDesc (e : FlaggedEntry) (l : List FlaggedEntry) :
    e ∈ sortByRiskDesc l ↔ e ∈ l :=
  (List.perm_insertionSort riskGE l).mem_iff

theorem flaggedEntries_eq (pt : String → Option Int) (now : String)
    (recs : List LogRecord) :
    (analyzeLogsForDDoS pt now recs).flaggedEntries =
      sortByRiskDesc
        ((((groupByIPAndTime pt ANALYSIS_WINDOW recs).map Prod.snd).filter
            fun g => decide (2 ≤ riskScoreOf g)).map (mkFlaggedEntry now)) := by
  simp [analyzeLogsForDDoS, analyzeFromGroups, scanGroups_fst]

/-- C2. A window's flagged entry is emitted if and only if its total risk
score (fired rule weights plus label weights) is at least 2; in particular
every emitted entry has score ≥ 2, so a window scoring exactly 1 is never
flagged and one scoring ≥ 2 always is. -/
theorem window_flagged_iff_threshold (pt : String → Option Int) (now : String)
    (recs : List LogRecord) (k : String) (g : WindowGroup)
    (hf : findGroup (groupByIPAndTime pt ANALYSIS_WINDOW recs) k = some g) :
    (2 ≤ riskScoreOf g ↔
        mkFlaggedEntry now g ∈ (analyzeLogsForDDoS pt now recs).flaggedEntries) ∧
      ∀ e ∈ (analyzeLogsForDDoS pt now recs).flaggedEntries, 2 ≤ e.riskScore := by
  constructor
  · constructor
    · intro h2
      rw [flaggedEntries_eq, mem_sortByRiskDesc]
      exact List.mem_map_of_mem _
        (List.mem_filter.mpr ⟨findGroup_mem _ _ _ hf, by simpa using h2⟩)
    · intro hmem
      rw [flaggedEntries_eq, mem_sortByRiskDesc] at hmem
      obtain ⟨g', hg', heq⟩ := List.mem_map.mp hmem
      have hrisk : 2 ≤ riskScoreOf g' := by
        simpa using (List.mem_filter.mp hg').2
      have hsc : riskScoreOf g' = riskScoreOf g := by
        simpa using congrArg FlaggedEntry.riskScore heq
      rw [← hsc]
      exact hrisk
  · intro e he
    rw [flaggedEntries_eq, mem_sortByRiskDesc] at he
    obtain ⟨g', hg', rfl⟩ := List.mem_map.mp he
    simpa using (List.mem_filter.mp hg').2

unseal Rat.mul Rat.inv in
/-- C2 witness: the single-window run on a 500-request record (score 3) is
flagged, and every flagged entry of that run scores at least 2. -/
theorem window_flagged_iff_threshold_witness :
    (2 ≤ riskScoreOf g500 ↔
        mkFlaggedEntry "t" g500 ∈ (analyzeLogsForDDoS ptFix "t" [rec500]).flaggedEntries) ∧
      ∀ e ∈ (analyzeLogsForDDoS ptFix "t" [rec500]).flaggedEntries, 2 ≤ e.riskScore :=
  window_flagged_iff_threshold ptFix "t" [rec500] "203.0.113.7_0" g500 (by decide)

/-- C3. Every flagged entry's request frequency is its total request count
divided by the configured window size in minutes (`ANALYSIS_WINDOW`, 5) — not
by the elapsed time its records span — and a window totalling 500 requests
has frequency exactly 100 req/min. -/
theorem frequency_uses_configured_window (pt : String → Option Int) (now : String)
    (recs : List LogRecord) (e : FlaggedEntry)
    (he : e ∈ (analyzeLogsForDDoS pt now recs).flaggedEntries) :
    e.requestFrequency = (e.requestCount : Rat) / (ANALYSIS_WINDOW : Rat) ∧
      (e.requestCount = 500 → e.requestFrequency = 100) := by
  rw [flaggedEntries_eq, mem_sortByRiskDesc] at he
  obtain ⟨g', hg', rfl⟩ := List.mem_map.mp he
  constructor
  · rfl
  · intro h500
    have ht : g'.totalRequests = 500 := by simpa using h500
    rw [mkFlaggedEntry_requestFrequency, calculateRequestFrequency, ht]
    norm_num [ANALYSIS_WINDOW]

unseal Rat.mul Rat.inv in
/-- C3 witness: the flagged 500-request window of a concrete run has
frequency 500 / 5 = 100 req/min. -/
theorem frequency_uses_configured_window_witness :
    (mkFlaggedEntry "t" g500).requestFrequency =
        ((mkFlaggedEntry "t" g500).requestCount : Rat) / (ANALYSIS_WINDOW : Rat) ∧
      ((mkFlaggedEntry "t" g500).requestCount = 500 →
        (mkFlaggedEntry "t" g500).requestFrequency = 100) :=
  frequency_uses_configured_window ptFix "t" [rec500] (mkFlaggedEntry "t" g500)
    (by decide)

/-! ## Stability of the final sort -/

theorem filter_orderedInsert (s : Nat) (a : FlaggedEntry) (l : List FlaggedEntry) :
    (List.orderedInsert riskGE a l).filter (fun e => decide (e.riskScore = s)) =
      if a.riskScore = s then
        a :: l.filter (fun e => decide (e.riskScore = s))
      else l.filter (fun e => decide (e.riskScore = s)) := by
  induction l with
  | nil =>
    by_cases h : a.riskScore = s <;> simp [List.orderedInsert, List.filter_cons, h]
  | cons b l ih =>
    by_cases hr : riskGE a b
    · by_cases h : a.riskScore = s <;>
        simp [List.orderedInsert, hr, List.filter_cons, h]
    · have hlt : a.riskScore < b.riskScore := by
        simpa [riskGE, Nat.not_le] using hr
      by_cases h : a.riskScore = s
      · have hb : ¬ b.riskScore = s := by
          intro hb
          rw [← h] at hb
          exact absurd hb (Nat.ne_of_gt hlt)
        simp [List.orderedInsert, hr, List.filter_cons, h, hb, ih]
      · simp [List.orderedInsert, hr, List.filter_cons, h, ih]

theorem filter_sortByRiskDesc (s : Nat) (l : List FlaggedEntry) :
    (sortByRiskDesc l).filter (fun e => decide (e.riskScore = s)) =
      l.filter (fun e => decide (e.riskScore = s)) := by
  induction l with
  | nil => rfl
  | cons a l ih =>
    by_cases h : a.riskScore = s <;>
      simp [sortByRiskDesc, List.insertionSort, filter_orderedInsert, h,
        List.filter_cons, ih.symm]

/-- C7. The output flagged list is the pre-sort flagged list (in
window-processing order) sorted by descending risk score with a stable sort:
it is a permutation of it, pairwise descending in risk score, and for every
score value the entries carrying that score appear in exactly their
window-processing order. -/
theorem flagged_list_sorted_stably (pt : String → Option Int) (now : String)
    (recs : List LogRecord) :
    List.Sorted riskGE (analyzeLogsForDDoS pt now recs).flaggedEntries ∧
      (analyzeLogsForDDoS pt now recs).flaggedEntries.Perm
        (flaggedRawOf pt now recs) ∧
      ∀ s : Nat,
        (analyzeLogsForDDoS pt now recs).flaggedEntries.filter
            (fun e => decide (e.riskScore = s)) =
          (flaggedRawOf pt now recs).filter (fun e => decide (e.riskScore = s)) := by
  have heq : (analyzeLogsForDDoS pt now recs).flaggedEntries =
      sortByRiskDesc (flaggedRawOf pt now recs) := rfl
  refine ⟨?_, ?_, ?_⟩
  · rw [heq]
    exact List.sorted_insertionSort riskGE (flaggedRawOf pt now recs)
  · rw [heq]
    exact List.perm_insertionSort riskGE (flaggedRawOf pt now recs)
  · intro s
    rw [heq]
    exact filter_sortByRiskDesc s (flaggedRawOf pt now recs)

/-! ## Wall-clock dependence -/

unseal Rat.mul Rat.inv in
/-- C6 counterexample. Two runs of the engine on identical input records and
identical configuration, differing only in the wall-clock reading taken by
`new Date().toISOString()` when a window is flagged, produce different
outputs: the flagged entries embed the generation timestamp. -/
theorem analysis_depends_on_wall_clock :
    analyzeLogsForDDoS ptFix "2024-01-01T00:00:00.000Z" [recDNS] ≠
      analyzeLogsForDDoS ptFix "2024-01-01T00:00:01.000Z" [recDNS] := by
  decide

@[simp]
theorem stripEntryTime_riskScore (e : FlaggedEntry) :
    (stripEntryTime e).riskScore = e.riskScore := rfl

theorem map_strip_orderedInsert (a : FlaggedEntry) (l : List FlaggedEntry) :
    (List.orderedInsert riskGE a l).map stripEntryTime =
      List.orderedInsert riskGE (stripEntryTime a) (l.map stripEntryTime) := by
  induction l with
  | nil => rfl
  | cons b l ih =>
    by_cases h : riskGE a b
    · have h' : riskGE (stripEntryTime a) (stripEntryTime b) := h
      simp [List.orderedInsert, h, h']
    · have h' : ¬ riskGE (stripEntryTime a) (stripEntryTime b) := h
      simp [List.orderedInsert, h, h', ih]

theorem map_strip_sort (l : List FlaggedEntry) :
    (sortByRiskDesc l).map stripEntryTime = sortByRiskDesc (l.map stripEntryTime) := by
  induction l with
  | nil => rfl
  | cons a l ih =>
    simp only [sortByRiskDesc, List.insertionSort, List.map_cons] at ih ⊢
    rw [map_strip_orderedInsert, ih]

/-- C6 (amended). The engine is a pure function of its records and static
configuration up to the generation timestamps: erasing the wall-clock
timestamp field of every flagged entry makes any two runs on the same input
identical — the flagged set, risk scores, indicators, statistics, and
configuration echo carry no other ambient-state dependence. -/
theorem analysis_pure_up_to_generation_time (pt : String → Option Int)
    (t1 t2 : String) (recs : List LogRecord) :
    stripOutputTimes (analyzeLogsForDDoS pt t1 recs) =
      stripOutputTimes (analyzeLogsForDDoS pt t2 recs) := by
  have hflag :
      (scanGroups t1 (groupByIPAndTime pt ANALYSIS_WINDOW recs)
          (initStats recs)).1.map stripEntryTime =
        (scanGroups t2 (groupByIPAndTime pt ANALYSIS_WINDOW recs)
          (initStats recs)).1.map stripEntryTime := by
    rw [scanGroups_fst, scanGroups_fst, List.map_map, List.map_map]
    congr 1
  have hstats :
      (scanGroups t1 (groupByIPAndTime pt ANALYSIS_WINDOW recs)
          (initStats recs)).2 =
        (scanGroups t2 (groupByIPAndTime pt ANALYSIS_WINDOW recs)
          (initStats recs)).2 := by
    rw [scanGroups_snd, scanGroups_snd]
  simp only [analyzeLogsForDDoS, analyzeFromGroups, stripOutputTimes]
  rw [map_strip_sort, map_strip_sort, hflag, hstats]

/-! ## Normaliser rejection -/

theorem trimOr_sentinel_iff (v : Option String) (d : String) :
    trimOr v d = d ↔ missingOrSentinel v d := by
  cases v with
  | none => simp [trimOr, missingOrSentinel]
  | some s =>
    simp only [trimOr, missingOrSentinel]
    by_cases h : jsTrim s = ""
    · simp [h]
    · simp [h]

/-- C8. A raw row is rejected by the normaliser (skipped with a warning, never
aborting the run) exactly when its timestamp, source address, or destination
address is missing, empty, or the sentinel after trimming; a row missing the
source-address column is rejected whatever its other fields hold; and every
record reaching the parsed output (hence all downstream aggregates) comes from
an accepted row. -/
theorem normalizer_rejects_iff_required_missing :
    (∀ row : RawRow,
        normalizeLogEntry row = none ↔
          (missingOrSentinel row.timestamp "N/A" ∨
            missingOrSentinel row.sourceIP "UNKNOWN" ∨
            missingOrSentinel row.destinationIP "UNKNOWN")) ∧
      (∀ row : RawRow, row.sourceIP = none → normalizeLogEntry row = none) ∧
      (∀ (rows : List RawRow) (r : LogRecord), r ∈ parseCSVLogs rows →
        ∃ row ∈ rows, normalizeLogEntry row = some r) := by
  have hiff : ∀ row : RawRow,
      normalizeLogEntry row = none ↔
        (missingOrSentinel row.timestamp "N/A" ∨
          missingOrSentinel row.sourceIP "UNKNOWN" ∨
          missingOrSentinel row.destinationIP "UNKNOWN") := by
    intro row
    have hcond : normalizeLogEntry row = none ↔
        (trimOr row.timestamp "N/A" = "N/A" ∨ trimOr row.sourceIP "UNKNOWN" = "UNKNOWN" ∨
          trimOr row.destinationIP "UNKNOWN" = "UNKNOWN") := by
      simp only [normalizeLogEntry]
      split
      · rename_i h
        simpa using h
      · rename_i h
        simp [h]
    rw [hcond, trimOr_sentinel_iff, trimOr_sentinel_iff, trimOr_sentinel_iff]
  refine ⟨hiff, ?_, ?_⟩
  · intro row h
    rw [hiff]
    exact Or.inr (Or.inl (by simp [h, missingOrSentinel]))
  · intro rows r hr
    obtain ⟨row, hrow, heq⟩ := List.mem_filterMap.mp hr
    exact ⟨row, hrow, heq⟩

/-- C8 witness: the concrete row missing its source column is rejected; the
rejection test on a concrete well-formed row is exactly the
missing-or-sentinel disjunction; the accepted record of a one-row run traces
back to its raw row. -/
theorem normalizer_rejects_iff_required_missing_witness :
    normalizeLogEntry rowNoSrc = none ∧
      (normalizeLogEntry rowGood = none ↔
        (missingOrSentinel rowGood.timestamp "N/A" ∨
          missingOrSentinel rowGood.sourceIP "UNKNOWN" ∨
          missingOrSentinel rowGood.destinationIP "UNKNOWN")) ∧
      ∃ row ∈ [rowGood], normalizeLogEntry row = some recGood :=
  ⟨normalizer_rejects_iff_required_missing.2.1 rowNoSrc rfl,
    normalizer_rejects_iff_required_missing.1 rowGood,
    normalizer_rejects_iff_required_missing.2.2 [rowGood] recGood (by decide)⟩

/-! ## Request-count parsing -/

/-- C9 counterexample. The forward-packet field `"0"` parses successfully to
0, yet the accepted record's request count is 1 (so the default is not taken
"exactly when the field is unparsable"); the field `"-10"` — one of the
repository's own sample edge rows — parses to −10 and is kept, so the request
count is not always a positive integer. -/
theorem request_count_not_parse_value :
    jsParseInt "0" = some 0 ∧
      (normalizeLogEntry rowZero).map LogRecord.requestCount = some 1 ∧
      jsParseInt "-10" = some (-10) ∧
      (normalizeLogEntry rowNeg).map LogRecord.requestCount = some (-10) := by
  refine ⟨by decide, by decide, by decide, by decide⟩

/-- C9 (amended). For every accepted row the request count is
`parseInt(field) || 1`: it equals the parsed integer whenever the field parses
to a nonzero value (including negative values), and defaults to 1 exactly when
the field is missing, unparsable, or parses to zero. -/
theorem request_count_best_effort (row : RawRow) (rec : LogRecord)
    (h : normalizeLogEntry row = some rec) :
    rec.requestCount = parseIntOr1 row.fwdPackets ∧
      (∀ s : String, row.fwdPackets = some s → jsParseInt s = none →
        rec.requestCount = 1) ∧
      (∀ s : String, row.fwdPackets = some s → jsParseInt s = some 0 →
        rec.requestCount = 1) ∧
      (∀ (s : String) (n : Int), row.fwdPackets = some s → jsParseInt s = some n →
        n ≠ 0 → rec.requestCount = n) := by
  have hrc : rec.requestCount = parseIntOr1 row.fwdPackets := by
    simp only [normalizeLogEntry] at h
    split at h
    · exact absurd h (by simp)
    · cases h
      rfl
  refine ⟨hrc, ?_, ?_, ?_⟩
  · intro s hs hp
    rw [hrc, hs]
    simp [parseIntOr1, hp]
  · intro s hs hp
    rw [hrc, hs]
    simp [parseIntOr1, hp]
  · intro s n hs hp hn
    rw [hrc, hs]
    simp [parseIntOr1, hp, hn]

/-- C9 witness: the concrete well-formed row parses its `"5"` packet field to
request count 5 through the `|| 1` best-effort rule. -/
theorem request_count_best_effort_witness :
    recGood.requestCount = parseIntOr1 rowGood.fwdPackets ∧
      (∀ s : String, rowGood.fwdPackets = some s → jsParseInt s = none →
        recGood.requestCount = 1) ∧
      (∀ s : String, rowGood.fwdPackets = some s → jsParseInt s = some 0 →
        recGood.requestCount = 1) ∧
      (∀ (s : String) (n : Int), rowGood.fwdPackets = some s → jsParseInt s = some n →
        n ≠ 0 → recGood.requestCount = n) :=
  request_count_best_effort rowGood recGood (by decide)

end DDoS
